import Mathlib

/-!
Shallow embedding of the lesson-production orchestrator of
`gemini-youtube-automation` (`main.py`), together with proofs about the
claims of its specification.

Python strings are modelled as Lean `String` values, viewed as their
sequence of code points (`String.data`); Python `len`, slicing, `strip`
and `rstrip` are modelled over that sequence.  Machine-level details of
the external collaborators (Gemini content generation, text-to-speech,
image rendering, video assembly, YouTube upload) are modelled as oracles:
each call either raises (`Except.error`) or returns a value, chosen by an
environment that the theorems quantify over.
-/

namespace GeminiYT

/-! ## Python string primitives -/

/-- Python `len(s)`: number of code points. -/
def pyLen (s : String) : Nat := s.data.length

/-- Python `s[:n]`: first `n` code points. -/
def pyTake (n : Nat) (s : String) : String := String.mk (s.data.take n)

/-- Python `s.rstrip()`: drop trailing whitespace. -/
def pyRstrip (s : String) : String :=
  String.mk ((s.data.reverse.dropWhile Char.isWhitespace).reverse)

/-- Python `s.strip()`: drop leading and trailing whitespace. -/
def pyStrip (s : String) : String :=
  String.mk (((s.data.dropWhile Char.isWhitespace).reverse.dropWhile Char.isWhitespace).reverse)

/-- Python truthiness of a string: `bool(s)` is `False` exactly for `""`. -/
def pyTruthyStr (s : String) : Bool := s ≠ ""

/-- Python truthiness of an optional string (`None` and `""` are falsy). -/
def pyTruthyOpt : Option String → Bool
  | none => false
  | some s => s ≠ ""

/-! ## Data model (`content_plan.json`, §3 of the spec) -/

/-- Lesson `status` field: enum `{pending, complete}`. -/
inductive Status where
  | pending
  | complete
deriving DecidableEq, Repr

/-- One lesson record of the content plan. -/
structure Lesson where
  chapter : String
  part : String
  title : String
  status : Status
  youtube_id : Option String
deriving DecidableEq, Repr

/-- The content plan: `{"lessons": [...]}`. -/
structure Plan where
  lessons : List Lesson
deriving DecidableEq, Repr

/-- One slide as returned by the content provider. -/
structure Slide where
  title : String
  content : String
deriving DecidableEq, Repr

/-- Result of `generate_lesson_content(title)`.  The source reads
`lesson_content['short_form_highlight']` directly and elsewhere guards it
with `.get(...) or ''`, which maps a missing/null highlight to `""`; the
field is therefore modelled as a `String` in which `""` covers null.
`hashtags` is read only through `.get` with a default, so it stays
optional. -/
structure LessonContent where
  long_form_slides : List Slide
  short_form_highlight : String
  hashtags : Option String
deriving DecidableEq, Repr

/-! ## Collaborator oracles and observable events -/

/-- Modelled from the spec: the presenter-name constant `YOUR_NAME` is
imported by `main.py` from `src.generator`, but the generator revision
defining it is not under `src/`.  It is an opaque string constant; no
claim depends on its value. -/
def YOUR_NAME : String := "Chaitanya"

/-- Observable effects of one orchestrator run, in call order.  `uploadLong`
and `uploadShort` are the first and second `upload_to_youtube` call of a
lesson attempt (`main.py` lines 130 and 146). -/
inductive Event where
  | genContent (title : String)
  | tts (script : String)
  | visuals (video_type : String) (slide_number : Option Nat)
  | createVideo (video_type : String)
  | uploadLong (title description tags : String)
  | uploadShort (title description tags : String)
  | sleep (seconds : Nat)
  | savePlan (plan : Plan)
  | cleanup (ok : Bool)
deriving DecidableEq, Repr

/-- Outcomes of the external collaborators during one lesson attempt.
Each call either raises (`Except.error ()`) or returns.  `upload_to_youtube`
is additionally indexed by its per-attempt invocation count (0 = long-form,
1 = short-form) since the two calls may behave differently. -/
structure Collab where
  generate_lesson_content : String → Except Unit LessonContent
  text_to_speech : String → Except Unit Unit
  generate_visuals : String → Option Nat → Except Unit Unit
  create_video : String → Except Unit Unit
  upload_to_youtube : Nat → String → String → String → Except Unit (Option String)

/-! ## String builders of `produce_lesson_videos` (`main.py` 43-154) -/

/-- Long-form narration script (`main.py` 61-63). -/
def long_form_script_src (lesson : Lesson) (lc : LessonContent) : String :=
  "Hello and welcome to AI for Developers. I\x27m " ++ YOUR_NAME ++ ". In today\x27s lesson, "
    ++ lesson.title ++ ". "
    ++ String.intercalate " " (lc.long_form_slides.map Slide.content)
    ++ " Thanks for watching! If you found this helpful, make sure to subscribe to our channel and hit the like button."

/-- Long-form video description (`main.py` 126-127). -/
def long_form_desc_src (lesson : Lesson) (lc : LessonContent) : String :=
  let generated_hashtags := lc.hashtags.getD "#AI #Developer #LearnAI"
  "Part of the \x27AI for Developers\x27 series by " ++ YOUR_NAME ++ ".\n\nToday\x27s Lesson: "
    ++ lesson.title ++ "\n\n" ++ generated_hashtags

/-- Long-form video tags (`main.py` 128). -/
def long_form_tags_src (lesson : Lesson) : String :=
  "AI, Artificial Intelligence, Developer, Programming, Tutorial, "
    ++ String.replace lesson.title " " ", "

/-- Short-form highlight after the `or ''`/`strip`/fallback dance
(`main.py` 141-143): the trimmed highlight, or the fixed fallback when it
is empty after trimming. -/
def short_highlight_src (lesson : Lesson) (lc : LessonContent) : String :=
  let highlight := pyStrip lc.short_form_highlight
  if pyTruthyStr highlight then highlight else "AI Quick Tip: " ++ lesson.title

/-- Short-form title (`main.py` 144): highlight truncated to 90 code
points, right-stripped, then the fixed suffix tag. -/
def short_title_src (lesson : Lesson) (lc : LessonContent) : String :=
  pyRstrip (pyTake 90 (short_highlight_src lesson lc)) ++ " #Shorts"

/-- Short-form description (`main.py` 145): cross-links the long-form id. -/
def short_desc_src (long_video_id : String) : String :=
  "Watch the full lesson with " ++ YOUR_NAME ++ " here: https://www.youtube.com/watch?v="
    ++ long_video_id ++ "\n\n#AI #Programming #Tech #Developer"

/-! ## The single-lesson production sequence (`produce_lesson_videos`) -/

/-- The slide-rendering loop (`main.py` 73-82): one `generate_visuals`
call per slide, numbered from 1; stops at the first raising call. -/
def renderSlides (c : Collab) (video_type : String) (n : Nat) :
    List Slide → Except Unit Unit × List Event
  | [] => (.ok (), [])
  | _ :: rest =>
    match c.generate_visuals video_type (some n) with
    | .error u => (.error u, [.visuals video_type (some n)])
    | .ok _ =>
      let r := renderSlides c video_type (n + 1) rest
      (r.1, .visuals video_type (some n) :: r.2)

/-- Sequencing of traced fallible computations: run `sub`; on an
exception propagate it (keeping `sub`'s trace), otherwise continue with
`k`, concatenating traces.  This is ordinary Python statement sequencing
under exceptions. -/
def seqT {α β : Type} (sub : Except Unit α × List Event)
    (k : α → Except Unit β × List Event) : Except Unit β × List Event :=
  match sub.1 with
  | .error u => (.error u, sub.2)
  | .ok a => ((k a).1, sub.2 ++ (k a).2)

/-- One traced collaborator call. -/
def call {α : Type} (r : Except Unit α) (e : Event) : Except Unit α × List Event :=
  (r, [e])

/-- `produce_lesson_videos` after content generation succeeded
(`main.py` 50-154), one `seqT` step per source statement, in source
order.  Returns the long-form id (or `none`); `Except.error` models an
uncaught exception. -/
def produce_rest (c : Collab) (lesson : Lesson) (lesson_content : LessonContent) :
    Except Unit (Option String) × List Event :=
  let intro_slide : Slide :=
    ⟨lesson.title, "Chapter " ++ lesson.chapter ++ " | Part " ++ lesson.part⟩
  let outro_slide : Slide :=
    ⟨"Thanks for Watching!", "Like, Share & Subscribe for more daily AI content!\n#AIforDevelopers"⟩
  let all_long_form_slides := [intro_slide] ++ lesson_content.long_form_slides ++ [outro_slide]
  let long_form_script := long_form_script_src lesson lesson_content
  seqT (call (c.text_to_speech long_form_script) (.tts long_form_script)) fun _ =>
  seqT (renderSlides c "long" 1 all_long_form_slides) fun _ =>
  seqT (call (c.create_video "long") (.createVideo "long")) fun _ =>
  seqT (call (c.generate_visuals "long" none) (.visuals "long" none)) fun _ =>
  seqT (call (c.text_to_speech lesson_content.short_form_highlight)
        (.tts lesson_content.short_form_highlight)) fun _ =>
  seqT (call (c.generate_visuals "short" (some 1)) (.visuals "short" (some 1))) fun _ =>
  seqT (call (c.create_video "short") (.createVideo "short")) fun _ =>
  seqT (call (c.generate_visuals "short" none) (.visuals "short" none)) fun _ =>
  let long_form_desc := long_form_desc_src lesson lesson_content
  let long_form_tags := long_form_tags_src lesson
  seqT (call (c.upload_to_youtube 0 lesson.title long_form_desc long_form_tags)
        (.uploadLong lesson.title long_form_desc long_form_tags)) fun long_video_id =>
  match long_video_id with
  | none => (.ok none, [])
  | some lid =>
    if lid = "" then
      (.ok none, [])
    else
      let short_title := short_title_src lesson lesson_content
      let short_desc := short_desc_src lid
      seqT (⟨Except.ok (), [Event.sleep 30]⟩ : Except Unit Unit × List Event) fun _ =>
      seqT (call (c.upload_to_youtube 1 (pyStrip short_title) short_desc "AI,Shorts,TechTip")
            (.uploadShort (pyStrip short_title) short_desc "AI,Shorts,TechTip")) fun _ =>
      (.ok (some lid), [])

/-- `produce_lesson_videos(lesson)` (`main.py` 43-154). -/
def produce_lesson_videos (c : Collab) (lesson : Lesson) :
    Except Unit (Option String) × List Event :=
  seqT (call (c.generate_lesson_content lesson.title) (.genContent lesson.title)) fun lesson_content =>
  produce_rest c lesson lesson_content

/-! ## The orchestrator (`main`, `main.py` 157-197) -/

/-- `LESSONS_PER_RUN` (`main.py` 23).  The loop at line 172 is modelled
with the quota as a parameter, instantiated with this constant in `main`,
since the spec treats it as the configured per-run quota. -/
def LESSONS_PER_RUN : Nat := 1

/-- `lesson['status'] == 'pending'` (`main.py` 166). -/
def Lesson.isPending (l : Lesson) : Bool :=
  match l.status with
  | .pending => true
  | .complete => false

/-- Python `enumerate`, starting at index `i`. -/
def pyEnumerate (i : Nat) : List Lesson → List (Nat × Lesson)
  | [] => []
  | x :: xs => (i, x) :: pyEnumerate (i + 1) xs

/-- `[(i, lesson) for i, lesson in enumerate(plan['lessons']) if
lesson['status'] == 'pending']` (`main.py` 166). -/
def pendingLessons (plan : Plan) : List (Nat × Lesson) :=
  (pyEnumerate 0 plan.lessons).filter (fun p => p.2.isPending)

/-- In-place update of the list entry at an index (out-of-range is a
no-op; the orchestrator only uses in-range indices from `enumerate`). -/
def modifyAt (f : Lesson → Lesson) : List Lesson → Nat → List Lesson
  | [], _ => []
  | x :: xs, 0 => f x :: xs
  | x :: xs, n + 1 => x :: modifyAt f xs n

/-- `plan['lessons'][i]['status'] = 'complete'; ...['youtube_id'] = video_id`
(`main.py` 176-177). -/
def markComplete (video_id : Option String) (l : Lesson) : Lesson :=
  { l with status := .complete, youtube_id := video_id }

/-- State threaded through the lesson loop: the in-memory plan, the
persisted (on-disk) plan, and the event trace so far. -/
structure RunState where
  mem : Plan
  disk : Plan
  trace : List Event
deriving DecidableEq, Repr

/-- `update_content_plan(plan)` (`main.py` 38-40): overwrite the persisted
document with the full in-memory plan. -/
def update_content_plan (st : RunState) : RunState :=
  { st with disk := st.mem, trace := st.trace ++ [.savePlan st.mem] }

/-- One iteration of the lesson loop (`main.py` 172-186): try the
production sequence, on a truthy returned id mark the lesson complete, on
exception change nothing, and in the `finally` block persist the plan. -/
def processOne (c : Collab) (st : RunState) (il : Nat × Lesson) : RunState :=
  let r := produce_lesson_videos c il.2
  let mem' : Plan :=
    match r.1 with
    | .ok video_id =>
      if pyTruthyOpt video_id then
        ⟨modifyAt (markComplete video_id) st.mem.lessons il.1⟩
      else st.mem
    | .error _ => st.mem
  update_content_plan { mem := mem', disk := st.disk, trace := st.trace ++ r.2 }

/-- Environment of one whole run: outcome of the workspace `mkdir`, of the
plan load/create, the collaborator behaviour for the `k`-th selected
lesson attempt, and the outcome of the final `.wav` cleanup. -/
structure RunEnv where
  mkdir_ok : Except Unit Unit
  load_plan : Except Unit Plan
  collab : Nat → Collab
  cleanup_ok : Except Unit Unit

/-- The `for lesson_index, lesson in pending_lessons[:LESSONS_PER_RUN]`
loop (`main.py` 172-186); `k` counts attempts for the environment. -/
def runLessons (env : RunEnv) (k : Nat) (st : RunState) :
    List (Nat × Lesson) → RunState
  | [] => st
  | il :: rest => runLessons env (k + 1) (processOne (env.collab k) st il) rest

/-- Result of a run: in-memory plan and persisted plan at exit (`none`
when the load never succeeded), plus the event trace. -/
structure RunResult where
  plan : Option Plan
  disk : Option Plan
  trace : List Event
deriving DecidableEq, Repr

/-- The best-effort `.wav` cleanup block (`main.py` 192-197): attempted,
and its own failure is caught and logged, never re-raised. -/
def runCleanup (env : RunEnv) : List Event :=
  match env.cleanup_ok with
  | .ok _ => [.cleanup true]
  | .error _ => [.cleanup false]

/-- `main()` (`main.py` 157-197) with the per-run quota as a parameter.
A fatal `mkdir`/plan-load failure is caught at line 188 and still reaches
the cleanup block; the `return` at line 170 (no pending lessons) exits
`main` before the cleanup block, which is therefore skipped on that path. -/
def runMain (env : RunEnv) (quota : Nat) : Except Unit RunResult :=
  match env.mkdir_ok with
  | .error _ => .ok ⟨none, none, runCleanup env⟩
  | .ok _ =>
    match env.load_plan with
    | .error _ => .ok ⟨none, none, runCleanup env⟩
    | .ok plan =>
      let pending_lessons := pendingLessons plan
      if pending_lessons.isEmpty then
        .ok ⟨some plan, some plan, []⟩
      else
        let st := runLessons env 0 ⟨plan, plan, []⟩ (pending_lessons.take quota)
        .ok ⟨some st.mem, some st.disk, st.trace ++ runCleanup env⟩

/-- `main()` as shipped, with `LESSONS_PER_RUN = 1`. -/
def main (env : RunEnv) : Except Unit RunResult := runMain env LESSONS_PER_RUN

/-! ## Event classifiers -/

/-- Is this a content-generation call? -/
def Event.isGenContent : Event → Bool
  | .genContent _ => true
  | _ => false

/-- Is this a long-form publish call? -/
def Event.isUploadLong : Event → Bool
  | .uploadLong _ _ _ => true
  | _ => false

/-- Is this a short-form publish call? -/
def Event.isUploadShort : Event → Bool
  | .uploadShort _ _ _ => true
  | _ => false

/-- Is this a cooldown wait? -/
def Event.isSleep : Event → Bool
  | .sleep _ => true
  | _ => false

/-- Is this a plan persistence? -/
def Event.isSavePlan : Event → Bool
  | .savePlan _ => true
  | _ => false

/-- Is this the final cleanup block? -/
def Event.isCleanup : Event → Bool
  | .cleanup _ => true
  | _ => false

/-- The waits of a trace are exactly one `sleep 30` per short-form
publish attempt, in the same order. -/
def SleepMatch (t : List Event) : Prop :=
  t.filter Event.isSleep = (t.filter Event.isUploadShort).map (fun _ => Event.sleep 30)

/-- How a lesson record can change across a run: the `chapter`, `part`
and `title` fields never change, and the record either stays exactly as
it was or has been marked complete. -/
def LessonEvolves (l l' : Lesson) : Prop :=
  l'.chapter = l.chapter ∧ l'.part = l.part ∧ l'.title = l.title ∧
    (l' = l ∨ l'.status = Status.complete)

/-! ## Concrete fixtures for witnesses and counterexamples -/

/-- Default lesson record for out-of-range lookups. -/
def noLesson : Lesson := ⟨"", "", "", .pending, none⟩

def exContent : LessonContent := ⟨[⟨"S1", "Body one."⟩], "A great tip", some "#AI"⟩

def exLesson : Lesson := ⟨"1", "1", "Intro to AI", .pending, none⟩

def exLesson2 : Lesson := ⟨"1", "2", "Second lesson", .pending, none⟩

def exLessonDone : Lesson := ⟨"1", "1", "Intro to AI", .complete, some "vidX"⟩

/-- Collaborator in which every content/media step succeeds and the two
uploads behave as `up` prescribes. -/
def okCollabWith (up : Nat → String → String → String → Except Unit (Option String)) : Collab :=
  ⟨fun _ => .ok exContent, fun _ => .ok (), fun _ _ => .ok (), fun _ => .ok (), up⟩

/-- Collaborator whose content generation raises. -/
def failCollab : Collab :=
  ⟨fun _ => .error (), fun _ => .ok (), fun _ _ => .ok (), fun _ => .ok (),
   fun _ _ _ _ => .ok none⟩

/-- All steps succeed; long-form publish returns `"vid123"`, short-form
publish returns null without raising. -/
def collabC1 : Collab :=
  okCollabWith (fun k _ _ _ => if k = 0 then .ok (some "vid123") else .ok none)

def envC1 : RunEnv := ⟨.ok (), .ok ⟨[exLesson]⟩, fun _ => collabC1, .ok ()⟩

/-- All steps succeed; long-form publish returns the non-null but falsy
identifier `""`. -/
def collabC6 : Collab :=
  okCollabWith (fun k _ _ _ => if k = 0 then .ok (some "") else .ok (some "x"))

def planTwo : Plan := ⟨[exLesson, exLesson2]⟩

def envTwo : RunEnv := ⟨.ok (), .ok planTwo, fun _ => failCollab, .ok ()⟩

def planC9 : Plan := ⟨[exLessonDone]⟩

def envC9 : RunEnv := ⟨.ok (), .ok planC9, fun _ => failCollab, .ok ()⟩

/-- Two pending lessons with a fully succeeding collaborator. -/
def envHalf : RunEnv := ⟨.ok (), .ok planTwo, fun _ => collabC1, .ok ()⟩

/-- A highlight of 93 code points whose 90-point prefix ends in a space. -/
def exLongHighlight : String := String.mk (List.replicate 89 'a' ++ [' ', 'b', 'b', 'b'])

def exContentLong : LessonContent := ⟨[], exLongHighlight, none⟩

/-- Trace of a run result (empty for a raising run). -/
def traceOf : Except Unit RunResult → List Event
  | .ok res => res.trace
  | .error _ => []

/-- Status column of the final in-memory plan of a run. -/
def statusesOf : Except Unit RunResult → Option (List Status)
  | .ok res => res.plan.map fun p => p.lessons.map Lesson.status
  | .error _ => none

/-! ## Run-level selection abbreviations -/

/-- The lessons selected for one run: `pending_lessons[:quota]`
(`main.py` 172). -/
def selOf (plan : Plan) (quota : Nat) : List (Nat × Lesson) :=
  (pendingLessons plan).take quota

/-- The loop state after running the selected lessons from a fresh load. -/
def loopState (env : RunEnv) (plan : Plan) (sel : List (Nat × Lesson)) : RunState :=
  runLessons env 0 ⟨plan, plan, []⟩ sel

/-! ## Generic trace lemmas -/

theorem seqT_filter {α β : Type} (sub : Except Unit α × List Event)
    (k : α → Except Unit β × List Event) (p : Event → Bool) :
    (seqT sub k).2.filter p =
      sub.2.filter p ++ (match sub.1 with
        | .ok a => (k a).2.filter p
        | .error _ => []) := by
  cases h : sub.1 <;> simp [seqT, h, List.filter_append]

theorem seqT_filter_nil {α β : Type} {sub : Except Unit α × List Event}
    {k : α → Except Unit β × List Event} {p : Event → Bool}
    (h1 : sub.2.filter p = []) (h2 : ∀ a, (k a).2.filter p = []) :
    (seqT sub k).2.filter p = [] := by
  rw [seqT_filter]
  cases h : sub.1 <;> simp [h1, h2]

theorem call_trace {α : Type} (r : Except Unit α) (e : Event) :
    (call r e).2 = [e] := rfl

theorem renderSlides_events (c : Collab) (v : String) :
    ∀ (n : Nat) (ss : List Slide), ∀ e ∈ (renderSlides c v n ss).2,
      ∃ v' n', e = Event.visuals v' n' := by
  intro n ss
  induction ss generalizing n with
  | nil => simp [renderSlides]
  | cons s rest ih =>
    intro e he
    simp only [renderSlides] at he
    cases h : c.generate_visuals v (some n) with
    | error u =>
      rw [h] at he
      simp at he
      exact ⟨v, some n, he⟩
    | ok a =>
      rw [h] at he
      simp at he
      rcases he with rfl | he
      · exact ⟨v, some n, rfl⟩
      · exact ih (n + 1) e he

theorem renderSlides_filter_nil (c : Collab) (v : String) (n : Nat) (ss : List Slide)
    {p : Event → Bool} (hp : ∀ v' n', p (Event.visuals v' n') = false) :
    (renderSlides c v n ss).2.filter p = [] := by
  rw [List.filter_eq_nil_iff]
  intro e he
  obtain ⟨v', n', rfl⟩ := renderSlides_events c v n ss e he
  simp [hp]

/-! ## Trace shape of the production sequence -/

theorem produce_rest_filter_genContent (c : Collab) (lesson : Lesson) (lc : LessonContent) :
    (produce_rest c lesson lc).2.filter Event.isGenContent = [] := by
  unfold produce_rest
  refine seqT_filter_nil (by simp [call, Event.isGenContent]) fun _ => ?_
  refine seqT_filter_nil (renderSlides_filter_nil c "long" 1 _ (by simp [Event.isGenContent])) fun _ => ?_
  refine seqT_filter_nil (by simp [call, Event.isGenContent]) fun _ => ?_
  refine seqT_filter_nil (by simp [call, Event.isGenContent]) fun _ => ?_
  refine seqT_filter_nil (by simp [call, Event.isGenContent]) fun _ => ?_
  refine seqT_filter_nil (by simp [call, Event.isGenContent]) fun _ => ?_
  refine seqT_filter_nil (by simp [call, Event.isGenContent]) fun _ => ?_
  refine seqT_filter_nil (by simp [call, Event.isGenContent]) fun _ => ?_
  refine seqT_filter_nil (by simp [call, Event.isGenContent]) fun long_video_id => ?_
  match long_video_id with
  | none => simp
  | some lid =>
    by_cases hl : lid = ""
    · simp [hl]
    · simp only [hl, if_false]
      refine seqT_filter_nil (by simp [Event.isGenContent]) fun _ => ?_
      exact seqT_filter_nil (by simp [call, Event.isGenContent]) fun _ => by simp

theorem produce_trace (c : Collab) (lesson : Lesson) :
    (produce_lesson_videos c lesson).2 =
      Event.genContent lesson.title ::
        (match c.generate_lesson_content lesson.title with
          | .ok lc => (produce_rest c lesson lc).2
          | .error _ => []) := by
  cases h : c.generate_lesson_content lesson.title <;>
    simp [produce_lesson_videos, seqT, call, h]

theorem produce_filter_genContent (c : Collab) (lesson : Lesson) :
    (produce_lesson_videos c lesson).2.filter Event.isGenContent =
      [Event.genContent lesson.title] := by
  rw [produce_trace]
  cases h : c.generate_lesson_content lesson.title <;>
    simp [Event.isGenContent, produce_rest_filter_genContent]

/-! ## Waits in a trace: each one is the fixed 30-second pause paired,
in order, with a short-form publish attempt -/

theorem sleepMatch_nil : SleepMatch [] := by simp [SleepMatch]

theorem sleepMatch_append {t u : List Event} (ht : SleepMatch t) (hu : SleepMatch u) :
    SleepMatch (t ++ u) := by
  unfold SleepMatch at ht hu ⊢
  simp [List.filter_append, ht, hu]

theorem sleepMatch_of_nil {t : List Event} (h1 : t.filter Event.isSleep = [])
    (h2 : t.filter Event.isUploadShort = []) : SleepMatch t := by
  simp [SleepMatch, h1, h2]

theorem sleepMatch_single {e : Event} (h1 : Event.isSleep e = false)
    (h2 : Event.isUploadShort e = false) : SleepMatch [e] := by
  simp [SleepMatch, h1, h2]

theorem seqT_sleepMatch {α β : Type} {sub : Except Unit α × List Event}
    {k : α → Except Unit β × List Event}
    (h1 : SleepMatch sub.2) (h2 : ∀ a, SleepMatch (k a).2) :
    SleepMatch (seqT sub k).2 := by
  cases h : sub.1 with
  | error u => simpa [seqT, h] using h1
  | ok a => simpa [seqT, h] using sleepMatch_append h1 (h2 a)

theorem produce_rest_sleepMatch (c : Collab) (lesson : Lesson) (lc : LessonContent) :
    SleepMatch (produce_rest c lesson lc).2 := by
  unfold produce_rest
  refine seqT_sleepMatch (sleepMatch_single rfl rfl) fun _ => ?_
  refine seqT_sleepMatch
    (sleepMatch_of_nil (renderSlides_filter_nil c "long" 1 _ (by simp [Event.isSleep]))
      (renderSlides_filter_nil c "long" 1 _ (by simp [Event.isUploadShort]))) fun _ => ?_
  refine seqT_sleepMatch (sleepMatch_single rfl rfl) fun _ => ?_
  refine seqT_sleepMatch (sleepMatch_single rfl rfl) fun _ => ?_
  refine seqT_sleepMatch (sleepMatch_single rfl rfl) fun _ => ?_
  refine seqT_sleepMatch (sleepMatch_single rfl rfl) fun _ => ?_
  refine seqT_sleepMatch (sleepMatch_single rfl rfl) fun _ => ?_
  refine seqT_sleepMatch (sleepMatch_single rfl rfl) fun _ => ?_
  refine seqT_sleepMatch (sleepMatch_single rfl rfl) fun long_video_id => ?_
  match long_video_id with
  | none => exact sleepMatch_nil
  | some lid =>
    by_cases hl : lid = ""
    · simp only [hl, if_true]
      exact sleepMatch_nil
    · simp only [hl, if_false]
      have htr :
          (seqT (⟨Except.ok (), [Event.sleep 30]⟩ : Except Unit Unit × List Event) fun _ =>
            seqT (call (c.upload_to_youtube 1 (pyStrip (short_title_src lesson lc))
                (short_desc_src lid) "AI,Shorts,TechTip")
              (.uploadShort (pyStrip (short_title_src lesson lc))
                (short_desc_src lid) "AI,Shorts,TechTip")) fun _ =>
            (.ok (some lid), [])).2 =
          [Event.sleep 30,
           Event.uploadShort (pyStrip (short_title_src lesson lc))
             (short_desc_src lid) "AI,Shorts,TechTip"] := by
        cases h : c.upload_to_youtube 1 (pyStrip (short_title_src lesson lc))
            (short_desc_src lid) "AI,Shorts,TechTip" <;>
          simp [seqT, call, h]
      rw [htr]
      simp [SleepMatch, Event.isSleep, Event.isUploadShort]

theorem produce_sleepMatch (c : Collab) (lesson : Lesson) :
    SleepMatch (produce_lesson_videos c lesson).2 := by
  rw [produce_trace]
  cases h : c.generate_lesson_content lesson.title with
  | error u => exact sleepMatch_single rfl rfl
  | ok lc =>
    have := sleepMatch_append (t := [Event.genContent lesson.title])
      (sleepMatch_single rfl rfl) (produce_rest_sleepMatch c lesson lc)
    simpa using this

/-! ## Structural lemmas on the lesson loop -/

theorem processOne_disk (c : Collab) (st : RunState) (il : Nat × Lesson) :
    (processOne c st il).disk = (processOne c st il).mem := rfl

theorem processOne_trace (c : Collab) (st : RunState) (il : Nat × Lesson) :
    (processOne c st il).trace =
      st.trace ++ (produce_lesson_videos c il.2).2 ++
        [Event.savePlan (processOne c st il).mem] := rfl

theorem processOne_mem_cases (c : Collab) (st : RunState) (il : Nat × Lesson) :
    (processOne c st il).mem = st.mem ∨
      ∃ vid, pyTruthyOpt vid = true ∧
        (processOne c st il).mem =
          ⟨modifyAt (markComplete vid) st.mem.lessons il.1⟩ := by
  cases h : (produce_lesson_videos c il.2).1 with
  | error u => left; simp [processOne, update_content_plan, h]
  | ok vid =>
    by_cases hv : pyTruthyOpt vid = true
    · right; exact ⟨vid, hv, by simp [processOne, update_content_plan, h, hv]⟩
    · left; simp [processOne, update_content_plan, h, hv]

theorem modifyAt_length (f : Lesson → Lesson) :
    ∀ (l : List Lesson) (i : Nat), (modifyAt f l i).length = l.length := by
  intro l
  induction l with
  | nil => intro i; rfl
  | cons x xs ih =>
    intro i
    cases i with
    | zero => rfl
    | succ n => simp [modifyAt, ih]

theorem modifyAt_getElem_ne (f : Lesson → Lesson) :
    ∀ (l : List Lesson) (i j : Nat), j ≠ i → (modifyAt f l i)[j]? = l[j]? := by
  intro l
  induction l with
  | nil => intro i j _; rfl
  | cons x xs ih =>
    intro i j hj
    cases i with
    | zero =>
      cases j with
      | zero => exact absurd rfl hj
      | succ m => simp [modifyAt]
    | succ n =>
      cases j with
      | zero => simp [modifyAt]
      | succ m => simp [modifyAt, ih n m (by omega)]

theorem modifyAt_getElem_eq (f : Lesson → Lesson) :
    ∀ (l : List Lesson) (i : Nat), (modifyAt f l i)[i]? = l[i]?.map f := by
  intro l
  induction l with
  | nil => intro i; rfl
  | cons x xs ih =>
    intro i
    cases i with
    | zero => simp [modifyAt]
    | succ n => simp [modifyAt, ih n]

/-! ## Enumeration and pending-selection lemmas -/

theorem pyEnumerate_fst_ge :
    ∀ (xs : List Lesson) (i : Nat) (p : Nat × Lesson), p ∈ pyEnumerate i xs → i ≤ p.1 := by
  intro xs
  induction xs with
  | nil => intro i p hp; simp [pyEnumerate] at hp
  | cons x rest ih =>
    intro i p hp
    simp only [pyEnumerate, List.mem_cons] at hp
    rcases hp with rfl | hp
    · exact Nat.le_refl i
    · exact Nat.le_of_succ_le (ih (i + 1) p hp)

theorem pyEnumerate_pairwise :
    ∀ (xs : List Lesson) (i : Nat),
      (pyEnumerate i xs).Pairwise (fun a b => a.1 < b.1) := by
  intro xs
  induction xs with
  | nil => intro i; simp [pyEnumerate]
  | cons x rest ih =>
    intro i
    simp only [pyEnumerate, List.pairwise_cons]
    exact ⟨fun p hp => Nat.lt_of_lt_of_le (Nat.lt_succ_self i) (pyEnumerate_fst_ge rest (i + 1) p hp),
           ih (i + 1)⟩

theorem pyEnumerate_getElem :
    ∀ (xs : List Lesson) (i : Nat) (p : Nat × Lesson),
      p ∈ pyEnumerate i xs → xs[p.1 - i]? = some p.2 := by
  intro xs
  induction xs with
  | nil => intro i p hp; simp [pyEnumerate] at hp
  | cons x rest ih =>
    intro i p hp
    simp only [pyEnumerate, List.mem_cons] at hp
    rcases hp with rfl | hp
    · simp
    · have hge := pyEnumerate_fst_ge rest (i + 1) p hp
      have := ih (i + 1) p hp
      rw [show p.1 - i = (p.1 - (i + 1)) + 1 from by omega]
      simpa using this

theorem pendingLessons_pairwise (plan : Plan) :
    (pendingLessons plan).Pairwise (fun a b => a.1 < b.1) :=
  (pyEnumerate_pairwise plan.lessons 0).filter _

theorem pendingLessons_mem {plan : Plan} {p : Nat × Lesson}
    (h : p ∈ pendingLessons plan) :
    plan.lessons[p.1]? = some p.2 ∧ p.2.isPending = true := by
  rw [pendingLessons, List.mem_filter] at h
  refine ⟨?_, h.2⟩
  have := pyEnumerate_getElem plan.lessons 0 p h.1
  simpa using this

/-! ## Loop invariants -/

theorem runLessons_append (env : RunEnv) :
    ∀ (xs ys : List (Nat × Lesson)) (k : Nat) (st : RunState),
      runLessons env k st (xs ++ ys) =
        runLessons env (k + xs.length) (runLessons env k st xs) ys := by
  intro xs
  induction xs with
  | nil => intro ys k st; simp [runLessons]
  | cons x rest ih =>
    intro ys k st
    simp only [List.cons_append, runLessons, List.length_cons]
    rw [show k + (rest.length + 1) = (k + 1) + rest.length from by omega]
    exact ih ys (k + 1) _

theorem runLessons_disk (env : RunEnv) :
    ∀ (sel : List (Nat × Lesson)) (k : Nat) (st : RunState), st.disk = st.mem →
      (runLessons env k st sel).disk = (runLessons env k st sel).mem := by
  intro sel
  induction sel with
  | nil => intro k st h; exact h
  | cons il rest ih =>
    intro k st _
    exact ih (k + 1) _ (processOne_disk _ _ _)

theorem runLessons_trace_extends (env : RunEnv) :
    ∀ (sel : List (Nat × Lesson)) (k : Nat) (st : RunState),
      ∃ t, (runLessons env k st sel).trace = st.trace ++ t := by
  intro sel
  induction sel with
  | nil => intro k st; exact ⟨[], by simp [runLessons]⟩
  | cons il rest ih =>
    intro k st
    obtain ⟨t, ht⟩ := ih (k + 1) (processOne (env.collab k) st il)
    refine ⟨(produce_lesson_videos (env.collab k) il.2).2 ++
      [Event.savePlan (processOne (env.collab k) st il).mem] ++ t, ?_⟩
    rw [runLessons, ht, processOne_trace]
    simp

theorem runLessons_length (env : RunEnv) :
    ∀ (sel : List (Nat × Lesson)) (k : Nat) (st : RunState),
      (runLessons env k st sel).mem.lessons.length = st.mem.lessons.length := by
  intro sel
  induction sel with
  | nil => intro k st; rfl
  | cons il rest ih =>
    intro k st
    rw [runLessons, ih]
    rcases processOne_mem_cases (env.collab k) st il with h | ⟨vid, _, h⟩
    · rw [h]
    · rw [h]; exact modifyAt_length _ _ _

theorem processOne_getElem_ne (c : Collab) (st : RunState) (il : Nat × Lesson)
    (j : Nat) (hj : j ≠ il.1) :
    (processOne c st il).mem.lessons[j]? = st.mem.lessons[j]? := by
  rcases processOne_mem_cases c st il with h | ⟨vid, _, h⟩
  · rw [h]
  · rw [h]; exact modifyAt_getElem_ne _ _ _ _ hj

theorem runLessons_getElem_ne (env : RunEnv) :
    ∀ (sel : List (Nat × Lesson)) (k : Nat) (st : RunState) (j : Nat),
      (∀ p ∈ sel, p.1 ≠ j) →
      (runLessons env k st sel).mem.lessons[j]? = st.mem.lessons[j]? := by
  intro sel
  induction sel with
  | nil => intro k st j _; rfl
  | cons il rest ih =>
    intro k st j hj
    rw [runLessons, ih (k + 1) _ j (fun p hp => hj p (List.mem_cons_of_mem il hp))]
    exact processOne_getElem_ne _ _ _ j
      (fun h => hj il (List.mem_cons_self il rest) (h ▸ rfl))

theorem lessonEvolves_refl (l : Lesson) : LessonEvolves l l :=
  ⟨rfl, rfl, rfl, Or.inl rfl⟩

theorem lessonEvolves_trans {a b c : Lesson}
    (h1 : LessonEvolves a b) (h2 : LessonEvolves b c) : LessonEvolves a c := by
  obtain ⟨c1, p1, t1, s1⟩ := h1
  obtain ⟨c2, p2, t2, s2⟩ := h2
  refine ⟨c2.trans c1, p2.trans p1, t2.trans t1, ?_⟩
  rcases s2 with rfl | s2
  · exact s1
  · exact Or.inr s2

theorem lessonEvolves_markComplete (vid : Option String) (l : Lesson) :
    LessonEvolves l (markComplete vid l) :=
  ⟨rfl, rfl, rfl, Or.inr rfl⟩

theorem processOne_evolves (c : Collab) (st : RunState) (il : Nat × Lesson)
    (j : Nat) (l : Lesson) (h : st.mem.lessons[j]? = some l) :
    ∃ l', (processOne c st il).mem.lessons[j]? = some l' ∧ LessonEvolves l l' := by
  rcases processOne_mem_cases c st il with h0 | ⟨vid, _, h0⟩
  · exact ⟨l, by rw [h0, h], lessonEvolves_refl l⟩
  · by_cases hj : j = il.1
    · subst hj
      refine ⟨markComplete vid l, ?_, lessonEvolves_markComplete vid l⟩
      rw [h0]
      show (modifyAt (markComplete vid) st.mem.lessons il.1)[il.1]? = _
      rw [modifyAt_getElem_eq, h]
      rfl
    · refine ⟨l, ?_, lessonEvolves_refl l⟩
      rw [h0]
      show (modifyAt (markComplete vid) st.mem.lessons il.1)[j]? = _
      rw [modifyAt_getElem_ne _ _ _ _ hj, h]

theorem runLessons_evolves (env : RunEnv) :
    ∀ (sel : List (Nat × Lesson)) (k : Nat) (st : RunState) (j : Nat) (l : Lesson),
      st.mem.lessons[j]? = some l →
      ∃ l', (runLessons env k st sel).mem.lessons[j]? = some l' ∧ LessonEvolves l l' := by
  intro sel
  induction sel with
  | nil => intro k st j l h; exact ⟨l, h, lessonEvolves_refl l⟩
  | cons il rest ih =>
    intro k st j l h
    obtain ⟨l1, h1, e1⟩ := processOne_evolves (env.collab k) st il j l h
    obtain ⟨l2, h2, e2⟩ := ih (k + 1) _ j l1 h1
    exact ⟨l2, h2, lessonEvolves_trans e1 e2⟩

/-! ## String-length facts for the short-form title -/

theorem pyLen_append (s t : String) : pyLen (s ++ t) = pyLen s + pyLen t := by
  simp [pyLen, String.data_append]

theorem pyLen_pyTake_le (n : Nat) (s : String) : pyLen (pyTake n s) ≤ n := by
  show (s.data.take n).length ≤ n
  rw [List.length_take]
  omega

theorem pyLen_pyRstrip_le (s : String) : pyLen (pyRstrip s) ≤ pyLen s := by
  show ((s.data.reverse.dropWhile Char.isWhitespace).reverse).length ≤ s.data.length
  rw [List.length_reverse]
  calc (s.data.reverse.dropWhile Char.isWhitespace).length
      ≤ s.data.reverse.length := (List.dropWhile_sublist _).length_le
    _ = s.data.length := List.length_reverse _

/-! ## Case analysis of `runMain` -/

theorem runMain_fatal_mkdir (env : RunEnv) (quota : Nat)
    (hmk : env.mkdir_ok = Except.error ()) :
    runMain env quota = Except.ok ⟨none, none, runCleanup env⟩ := by
  simp [runMain, hmk]

theorem runMain_fatal_load (env : RunEnv) (quota : Nat)
    (hmk : env.mkdir_ok = Except.ok ()) (hld : env.load_plan = Except.error ()) :
    runMain env quota = Except.ok ⟨none, none, runCleanup env⟩ := by
  simp [runMain, hmk, hld]

theorem runMain_empty (env : RunEnv) (quota : Nat) (plan : Plan)
    (hmk : env.mkdir_ok = Except.ok ()) (hld : env.load_plan = Except.ok plan)
    (hp : (pendingLessons plan).isEmpty = true) :
    runMain env quota = Except.ok ⟨some plan, some plan, []⟩ := by
  simp [runMain, hmk, hld, hp]

theorem runMain_loop (env : RunEnv) (quota : Nat) (plan : Plan)
    (hmk : env.mkdir_ok = Except.ok ()) (hld : env.load_plan = Except.ok plan)
    (hp : (pendingLessons plan).isEmpty = false) :
    runMain env quota = Except.ok
      ⟨some (runLessons env 0 ⟨plan, plan, []⟩ ((pendingLessons plan).take quota)).mem,
       some (runLessons env 0 ⟨plan, plan, []⟩ ((pendingLessons plan).take quota)).disk,
       (runLessons env 0 ⟨plan, plan, []⟩ ((pendingLessons plan).take quota)).trace ++
         runCleanup env⟩ := by
  simp [runMain, hmk, hld, hp]

theorem runMain_isOk (env : RunEnv) (quota : Nat) :
    ∃ r, runMain env quota = Except.ok r := by
  cases hmk : env.mkdir_ok with
  | error u => cases u; exact ⟨_, runMain_fatal_mkdir env quota hmk⟩
  | ok a =>
    cases a
    cases hld : env.load_plan with
    | error u => cases u; exact ⟨_, runMain_fatal_load env quota hmk hld⟩
    | ok plan =>
      cases hp : (pendingLessons plan).isEmpty with
      | true => exact ⟨_, runMain_empty env quota plan hmk hld hp⟩
      | false => exact ⟨_, runMain_loop env quota plan hmk hld hp⟩

/-! ## Whole-trace accumulation lemmas -/

theorem runLessons_filter_genContent (env : RunEnv) :
    ∀ (sel : List (Nat × Lesson)) (k : Nat) (st : RunState),
      (runLessons env k st sel).trace.filter Event.isGenContent =
        st.trace.filter Event.isGenContent ++
          sel.map (fun il => Event.genContent il.2.title) := by
  intro sel
  induction sel with
  | nil => intro k st; simp [runLessons]
  | cons il rest ih =>
    intro k st
    rw [runLessons, ih, processOne_trace]
    simp [List.filter_append, produce_filter_genContent, Event.isGenContent]

theorem runLessons_sleepMatch (env : RunEnv) :
    ∀ (sel : List (Nat × Lesson)) (k : Nat) (st : RunState),
      SleepMatch st.trace → SleepMatch (runLessons env k st sel).trace := by
  intro sel
  induction sel with
  | nil => intro k st h; exact h
  | cons il rest ih =>
    intro k st h
    refine ih (k + 1) _ ?_
    rw [processOne_trace]
    exact sleepMatch_append (sleepMatch_append h (produce_sleepMatch _ _))
      (sleepMatch_single rfl rfl)

theorem runCleanup_sleepMatch (env : RunEnv) : SleepMatch (runCleanup env) := by
  cases h : env.cleanup_ok <;> simp [runCleanup, h] <;> exact sleepMatch_single rfl rfl

theorem runMain_sleepMatch (env : RunEnv) (quota : Nat) (r : RunResult)
    (h : runMain env quota = Except.ok r) : SleepMatch r.trace := by
  cases hmk : env.mkdir_ok with
  | error u =>
    cases u
    rw [runMain_fatal_mkdir env quota hmk] at h
    cases h
    exact runCleanup_sleepMatch env
  | ok a =>
    cases a
    cases hld : env.load_plan with
    | error u =>
      cases u
      rw [runMain_fatal_load env quota hmk hld] at h
      cases h
      exact runCleanup_sleepMatch env
    | ok plan =>
      cases hp : (pendingLessons plan).isEmpty with
      | true =>
        rw [runMain_empty env quota plan hmk hld hp] at h
        cases h
        exact sleepMatch_nil
      | false =>
        rw [runMain_loop env quota plan hmk hld hp] at h
        cases h
        exact sleepMatch_append
          (runLessons_sleepMatch env _ 0 _ sleepMatch_nil)
          (runCleanup_sleepMatch env)

/-! ## Symbolic evaluation helpers -/

theorem seqT_fst_ok {α β : Type} {sub : Except Unit α × List Event}
    {k : α → Except Unit β × List Event} (a : α) (h : sub.1 = Except.ok a) :
    (seqT sub k).1 = (k a).1 := by
  simp [seqT, h]

theorem seqT_filter_ok {α β : Type} {sub : Except Unit α × List Event}
    {k : α → Except Unit β × List Event} {p : Event → Bool} (a : α)
    (h : sub.1 = Except.ok a) (h1 : sub.2.filter p = []) :
    (seqT sub k).2.filter p = (k a).2.filter p := by
  rw [seqT_filter, h, h1]
  simp

theorem renderSlides_ok (c : Collab) (v : String)
    (hvis : ∀ v' n, c.generate_visuals v' n = Except.ok ()) :
    ∀ (m : Nat) (ss : List Slide), (renderSlides c v m ss).1 = Except.ok () := by
  intro m ss
  induction ss generalizing m with
  | nil => rfl
  | cons s rest ih => simp [renderSlides, hvis, ih]

/-! ## The claims -/

/-- C1: counterexample.  With one pending lesson, every step succeeding,
the long-form publish returning `"vid123"` and the short-form publish
returning null without raising, `produce_lesson_videos` still returns the
long-form identifier, and the run records the lesson `complete` — the
procedure does not signal whole-lesson failure to the orchestrator, so
the lesson does not stay pending. -/
theorem c1_counterexample :
    collabC1.upload_to_youtube 1 (pyStrip (short_title_src exLesson exContent))
        (short_desc_src "vid123") "AI,Shorts,TechTip" = Except.ok none ∧
    (produce_lesson_videos collabC1 exLesson).1 = Except.ok (some "vid123") ∧
    ((traceOf (runMain envC1 1)).filter Event.isUploadShort).length = 1 ∧
    statusesOf (runMain envC1 1) = some [Status.complete] := by
  exact ⟨rfl, rfl, by decide, rfl⟩

/-- C1 (amended): when all steps succeed, the long-form publish returns
a truthy identifier and the subsequent short-form publish returns null
without raising, the production procedure ignores the null short-form
result and returns the long-form identifier (a success signal, so the
orchestrator records the lesson complete).  Whole-lesson failure is
signalled only by an exception or by a null/empty long-form result. -/
theorem c1_amended (c : Collab) (lesson : Lesson) (lc : LessonContent) (lid : String)
    (hgc : c.generate_lesson_content lesson.title = Except.ok lc)
    (htts : ∀ s, c.text_to_speech s = Except.ok ())
    (hvis : ∀ v n, c.generate_visuals v n = Except.ok ())
    (hcv : ∀ v, c.create_video v = Except.ok ())
    (hlid : lid ≠ "")
    (hup0 : ∀ t d g, c.upload_to_youtube 0 t d g = Except.ok (some lid))
    (hup1 : ∀ t d g, c.upload_to_youtube 1 t d g = Except.ok none) :
    (produce_lesson_videos c lesson).1 = Except.ok (some lid) := by
  have hrs := renderSlides_ok c "long" hvis
  simp [produce_lesson_videos, produce_rest, seqT, call, hgc, htts, hvis, hcv, hup0, hup1, hrs, hlid]

/-- C1: witness of the amended theorem at a concrete environment. -/
theorem c1_amended_witness :
    (produce_lesson_videos collabC1 exLesson).1 = Except.ok (some "vid123") :=
  c1_amended collabC1 exLesson exContent "vid123" rfl (fun _ => rfl) (fun _ _ => rfl)
    (fun _ => rfl) (by decide) (fun _ _ _ => rfl) (fun _ _ _ => rfl)

/-- C7: counterexample.  For a 93-point highlight whose 90-point prefix
ends in a space, the truncated part of the short-form title has 89 code
points, not exactly the configured maximum of 90: the source right-strips
after truncating (`highlight[:90].rstrip()`). -/
theorem c7_counterexample :
    pyLen (short_highlight_src exLesson exContentLong) = 93 ∧
    pyLen (pyRstrip (pyTake 90 (short_highlight_src exLesson exContentLong))) = 89 ∧
    short_title_src exLesson exContentLong =
      String.mk (List.replicate 89 'a') ++ " #Shorts" := by
  exact ⟨by decide, by decide, by decide⟩

/-- C7 (amended): the short-form title is built from the trimmed
highlight, with the fallback `"AI Quick Tip: " ++ title` used exactly
when the highlight is empty after trimming; a long highlight is truncated
to at most 90 code points (exactly 90 minus any trailing whitespace
removed after truncation) before the fixed ` #Shorts` suffix is appended,
so the whole title never exceeds 98 code points — under YouTube's
100-character limit. -/
theorem c7_amended (lesson : Lesson) (lc : LessonContent) :
    pyLen (short_title_src lesson lc) ≤ 98 ∧
    pyLen (pyRstrip (pyTake 90 (short_highlight_src lesson lc))) ≤ 90 ∧
    (pyStrip lc.short_form_highlight = "" →
      short_highlight_src lesson lc = "AI Quick Tip: " ++ lesson.title) ∧
    (pyStrip lc.short_form_highlight ≠ "" →
      short_highlight_src lesson lc = pyStrip lc.short_form_highlight) := by
  refine ⟨?_, le_trans (pyLen_pyRstrip_le _) (pyLen_pyTake_le _ _), ?_, ?_⟩
  · rw [short_title_src, pyLen_append]
    have h1 := pyLen_pyRstrip_le (pyTake 90 (short_highlight_src lesson lc))
    have h2 := pyLen_pyTake_le 90 (short_highlight_src lesson lc)
    have h8 : pyLen " #Shorts" = 8 := rfl
    omega
  · intro h; simp [short_highlight_src, pyTruthyStr, h]
  · intro h; simp [short_highlight_src, pyTruthyStr, h]

/-- C7: witness of the amended theorem at concrete highlights. -/
theorem c7_witness :
    pyLen (short_title_src exLesson exContentLong) ≤ 98 ∧
    short_highlight_src exLesson ⟨[], "", none⟩ = "AI Quick Tip: " ++ exLesson.title :=
  ⟨(c7_amended exLesson exContentLong).1,
   (c7_amended exLesson ⟨[], "", none⟩).2.2.1 rfl⟩

/-- C6: counterexample.  When the long-form publish returns the non-null
but falsy identifier `""`, the short-form publish is not attempted even
though the long-form publish returned a non-null identifier: the source
gate is Python truthiness (`if long_video_id:`), not a null check. -/
theorem c6_counterexample :
    collabC6.upload_to_youtube 0 exLesson.title (long_form_desc_src exLesson exContent)
        (long_form_tags_src exLesson) = Except.ok (some "") ∧
    (produce_lesson_videos collabC6 exLesson).2.filter Event.isUploadShort = [] ∧
    ((produce_lesson_videos collabC6 exLesson).2.filter Event.isUploadLong).length = 1 := by
  exact ⟨rfl, by decide, by decide⟩

/-- C6 (amended): the short-form publish is attempted if and only if the
long-form publish returned a truthy (non-null and non-empty) identifier,
and when attempted its description is the cross-linking string that
contains that long-form identifier. -/
theorem c6_amended (c : Collab) (lesson : Lesson) (lc : LessonContent) (r : Option String)
    (hgc : c.generate_lesson_content lesson.title = Except.ok lc)
    (htts : ∀ s, c.text_to_speech s = Except.ok ())
    (hvis : ∀ v n, c.generate_visuals v n = Except.ok ())
    (hcv : ∀ v, c.create_video v = Except.ok ())
    (hup0 : ∀ t d g, c.upload_to_youtube 0 t d g = Except.ok r) :
    ((produce_lesson_videos c lesson).2.filter Event.isUploadShort =
      match r with
      | none => []
      | some lid =>
        if lid = "" then []
        else [Event.uploadShort (pyStrip (short_title_src lesson lc))
               (short_desc_src lid) "AI,Shorts,TechTip"]) ∧
    (∀ lid : String, ∃ a b : String, short_desc_src lid = a ++ (lid ++ b)) := by
  constructor
  · have hrs := renderSlides_ok c "long" hvis
    have hno : ∀ (ss : List Slide), ∀ e ∈ (renderSlides c "long" 1 ss).2,
        Event.isUploadShort e = false := by
      intro ss e he
      obtain ⟨v', n', rfl⟩ := renderSlides_events c "long" 1 ss e he
      rfl
    rcases r with _ | lid
    · simp [produce_lesson_videos, produce_rest, seqT, call, hgc, htts, hvis, hcv, hup0, hrs,
        List.filter_append, Event.isUploadShort]
      exact fun e he => by simpa using hno _ e he
    · by_cases hl : lid = ""
      · simp [produce_lesson_videos, produce_rest, seqT, call, hgc, htts, hvis, hcv, hup0, hrs,
          List.filter_append, Event.isUploadShort, hl]
        exact fun e he => by simpa using hno _ e he
      · simp [produce_lesson_videos, produce_rest, seqT, call, hgc, htts, hvis, hcv, hup0, hrs,
          List.filter_append, Event.isUploadShort, hl]
        rw [@renderSlides_filter_nil c "long" 1 _ Event.isUploadShort (by simp [Event.isUploadShort])]
        cases h1 : c.upload_to_youtube 1 (pyStrip (short_title_src lesson lc))
            (short_desc_src lid) "AI,Shorts,TechTip" <;>
          simp [h1, Event.isUploadShort]
  · intro lid
    exact ⟨"Watch the full lesson with " ++ YOUR_NAME ++ " here: https://www.youtube.com/watch?v=",
      "\n\n#AI #Programming #Tech #Developer", by simp [short_desc_src, String.append_assoc]⟩

/-- C6: witness of the amended theorem at a concrete environment. -/
theorem c6_amended_witness :
    (produce_lesson_videos collabC1 exLesson).2.filter Event.isUploadShort =
      [Event.uploadShort (pyStrip (short_title_src exLesson exContent))
        (short_desc_src "vid123") "AI,Shorts,TechTip"] ∧
    (∃ a b : String, short_desc_src "vid123" = a ++ ("vid123" ++ b)) := by
  have h := c6_amended collabC1 exLesson exContent (some "vid123") rfl (fun _ => rfl)
    (fun _ _ => rfl) (fun _ => rfl) (fun _ _ _ => rfl)
  exact ⟨by simpa using h.1, h.2 "vid123"⟩

theorem isPending_iff (l : Lesson) : l.isPending = true ↔ l.status = Status.pending := by
  cases h : l.status <;> simp [Lesson.isPending, h]

theorem isEmpty_false_of_sel {plan : Plan} {quota n : Nat}
    (h : n < (selOf plan quota).length) : (pendingLessons plan).isEmpty = false := by
  cases hp : pendingLessons plan with
  | nil => rw [selOf, hp] at h; simp at h
  | cons a l => rfl

/-- C8: counterexample.  A run in which two lessons are selected and
attempted performs no wait at all between them: the trace holds two
content-generation events and zero sleep events, so the orchestrator has
no inter-lesson cooldown. -/
theorem c8_counterexample :
    ((pendingLessons planTwo).take 2).length = 2 ∧
    (traceOf (runMain envTwo 2)).filter Event.isGenContent =
      [Event.genContent "Intro to AI", Event.genContent "Second lesson"] ∧
    (traceOf (runMain envTwo 2)).filter Event.isSleep = [] := by
  exact ⟨by decide, by decide, by decide⟩

/-- C8 (amended): the orchestrator performs no inter-lesson cooldown;
every wait in any run's trace is the fixed 30-second pause paired
one-to-one, in order, with a short-form publish attempt of the same
lesson (`time.sleep(30)` before the second upload). -/
theorem c8_amended (env : RunEnv) (quota : Nat) :
    ∃ r, runMain env quota = Except.ok r ∧ SleepMatch r.trace ∧
      ∀ e ∈ r.trace, Event.isSleep e = true → e = Event.sleep 30 := by
  obtain ⟨r, hr⟩ := runMain_isOk env quota
  have hsm := runMain_sleepMatch env quota r hr
  refine ⟨r, hr, hsm, ?_⟩
  intro e he hs
  have h1 : e ∈ r.trace.filter Event.isSleep := List.mem_filter.mpr ⟨he, hs⟩
  rw [SleepMatch] at hsm
  rw [hsm] at h1
  obtain ⟨a, _, ha⟩ := List.mem_map.mp h1
  exact ha.symm

/-- C8: witness of the amended theorem at a concrete environment. -/
theorem c8_amended_witness :
    ∃ r, runMain envTwo 2 = Except.ok r ∧ SleepMatch r.trace ∧
      ∀ e ∈ r.trace, Event.isSleep e = true → e = Event.sleep 30 :=
  c8_amended envTwo 2

/-- C9: counterexample.  A run whose plan has no pending lessons returns
from inside the `try` block before the cleanup block, so the final
best-effort cleanup is not attempted on that path: its trace has no
cleanup event. -/
theorem c9_counterexample :
    runMain envC9 1 = Except.ok ⟨some planC9, some planC9, []⟩ ∧
    (traceOf (runMain envC9 1)).filter Event.isCleanup = [] :=
  ⟨rfl, by decide⟩

/-- C9 (amended): every run returns normally (cleanup failures are caught
and never raise), and the final best-effort cleanup is attempted at the
end of every run — including runs that fail fatally during workspace
creation or plan load — except the early-return path taken when no
lessons are pending, which skips the cleanup block. -/
theorem c9_amended (env : RunEnv) (quota : Nat) :
    ∃ r, runMain env quota = Except.ok r ∧
      ((env.mkdir_ok = Except.error () ∨ env.load_plan = Except.error () ∨
        (∃ plan, env.load_plan = Except.ok plan ∧ (pendingLessons plan).isEmpty = false)) →
        ∃ t b, r.trace = t ++ [Event.cleanup b]) ∧
      (∀ plan, env.mkdir_ok = Except.ok () → env.load_plan = Except.ok plan →
        (pendingLessons plan).isEmpty = true → r.trace = []) := by
  have hclean : ∃ b, runCleanup env = [Event.cleanup b] := by
    cases h : env.cleanup_ok with
    | ok a => exact ⟨true, by simp [runCleanup, h]⟩
    | error u => exact ⟨false, by simp [runCleanup, h]⟩
  obtain ⟨b, hb⟩ := hclean
  cases hmk : env.mkdir_ok with
  | error u =>
    cases u
    refine ⟨_, runMain_fatal_mkdir env quota hmk, fun _ => ⟨[], b, by simp [hb]⟩, ?_⟩
    intro plan hmk' _ _
    cases hmk'
  | ok a =>
    cases a
    cases hld : env.load_plan with
    | error u =>
      cases u
      refine ⟨_, runMain_fatal_load env quota hmk hld, fun _ => ⟨[], b, by simp [hb]⟩, ?_⟩
      intro plan _ hld' _
      cases hld'
    | ok plan0 =>
      cases hp : (pendingLessons plan0).isEmpty with
      | true =>
        refine ⟨_, runMain_empty env quota plan0 hmk hld hp, ?_, fun _ _ _ _ => rfl⟩
        rintro (h | h | ⟨plan1, hld1, hp1⟩)
        · cases h
        · cases h
        · cases hld1
          rw [hp] at hp1
          cases hp1
      | false =>
        refine ⟨_, runMain_loop env quota plan0 hmk hld hp,
          fun _ => ⟨(loopState env plan0 (selOf plan0 quota)).trace, b, by
            simp [loopState, selOf, hb]⟩, ?_⟩
        intro plan1 _ hld1 hp1
        cases hld1
        rw [hp] at hp1
        cases hp1

/-- C9: witness of the amended theorem at a concrete environment. -/
theorem c9_amended_witness :
    ∃ r, runMain envC9 1 = Except.ok r ∧
      ((envC9.mkdir_ok = Except.error () ∨ envC9.load_plan = Except.error () ∨
        (∃ plan, envC9.load_plan = Except.ok plan ∧ (pendingLessons plan).isEmpty = false)) →
        ∃ t b, r.trace = t ++ [Event.cleanup b]) ∧
      (∀ plan, envC9.mkdir_ok = Except.ok () → envC9.load_plan = Except.ok plan →
        (pendingLessons plan).isEmpty = true → r.trace = []) :=
  c9_amended envC9 1

/-- C3: each lesson's status transitions `pending → complete` at most
once and never reverts (a complete entry is left exactly as it is, and a
changed entry went from pending to complete); a run against a plan with
no pending lessons performs zero content, media or publish calls (empty
trace), leaves the plan untouched and terminates as a normal non-error
completion. -/
theorem c3_status (env : RunEnv) (quota : Nat) (plan : Plan) (r : RunResult)
    (hmk : env.mkdir_ok = Except.ok ()) (hld : env.load_plan = Except.ok plan)
    (hrun : runMain env quota = Except.ok r) :
    ((pendingLessons plan).isEmpty = true → r = ⟨some plan, some plan, []⟩) ∧
    (∀ mem, r.plan = some mem → ∀ (j : Nat) (l : Lesson), plan.lessons[j]? = some l →
      (l.status = Status.complete → mem.lessons[j]? = some l) ∧
      (∀ l' : Lesson, mem.lessons[j]? = some l' → l'.status ≠ l.status →
        l.status = Status.pending ∧ l'.status = Status.complete)) := by
  constructor
  · intro hp
    rw [runMain_empty env quota plan hmk hld hp] at hrun
    cases hrun
    rfl
  · intro mem hmem j l hl
    cases hp : (pendingLessons plan).isEmpty with
    | true =>
      rw [runMain_empty env quota plan hmk hld hp] at hrun
      cases hrun
      cases hmem
      refine ⟨fun _ => hl, fun l' hl' hne => ?_⟩
      rw [hl'] at hl
      cases hl
      exact absurd rfl hne
    | false =>
      rw [runMain_loop env quota plan hmk hld hp] at hrun
      cases hrun
      cases hmem
      constructor
      · intro hcomp
        have hnotsel : ∀ p ∈ (pendingLessons plan).take quota, p.1 ≠ j := by
          intro p hp' hpj
          have hm := pendingLessons_mem (List.take_subset _ _ hp')
          rw [hpj, hl] at hm
          obtain ⟨heq, hpend⟩ := hm
          cases heq
          rw [isPending_iff] at hpend
          rw [hcomp] at hpend
          cases hpend
        rw [runLessons_getElem_ne env _ 0 _ j hnotsel]
        exact hl
      · intro l' hl' hne
        obtain ⟨l'', h'', hev⟩ :=
          runLessons_evolves env ((pendingLessons plan).take quota) 0 ⟨plan, plan, []⟩ j l hl
        rw [hl'] at h''
        cases h''
        obtain ⟨_, _, _, hcase⟩ := hev
        rcases hcase with rfl | hcomp
        · exact absurd rfl hne
        · refine ⟨?_, hcomp⟩
          cases hls : l.status with
          | pending => rfl
          | complete =>
            rw [hcomp, hls] at hne
            exact absurd rfl hne

/-- C3: witness at a concrete no-pending plan. -/
theorem c3_witness :
    planC9.lessons[0]? = some exLessonDone ∧
    (pendingLessons planC9).isEmpty = true :=
  ⟨((c3_status envC9 1 planC9 ⟨some planC9, some planC9, []⟩ rfl rfl rfl).2 planC9 rfl 0
      exLessonDone rfl).1 rfl, by decide⟩

/-- C10: frame property.  A run never changes the number or order of
lesson records, never modifies the `chapter`, `part` or `title` field of
any lesson, leaves every lesson outside the selected pending ones exactly
as it was, and changes an attempted lesson only by setting `status` to
complete (from pending) together with its `youtube_id`. -/
theorem c10_frame (env : RunEnv) (quota : Nat) (plan : Plan)
    (hmk : env.mkdir_ok = Except.ok ()) (hld : env.load_plan = Except.ok plan) :
    ∃ r, runMain env quota = Except.ok r ∧
      ∀ mem, r.plan = some mem →
        mem.lessons.length = plan.lessons.length ∧
        (∀ j : Nat, (∀ p ∈ selOf plan quota, p.1 ≠ j) → mem.lessons[j]? = plan.lessons[j]?) ∧
        (∀ (j : Nat) (l l' : Lesson), plan.lessons[j]? = some l → mem.lessons[j]? = some l' →
          l'.chapter = l.chapter ∧ l'.part = l.part ∧ l'.title = l.title ∧
          (l' = l ∨ (l.status = Status.pending ∧ l'.status = Status.complete))) := by
  cases hp : (pendingLessons plan).isEmpty with
  | true =>
    refine ⟨_, runMain_empty env quota plan hmk hld hp, ?_⟩
    intro mem hmem
    cases hmem
    refine ⟨rfl, fun j _ => rfl, fun j l l' hl hl' => ?_⟩
    rw [hl'] at hl
    cases hl
    exact ⟨rfl, rfl, rfl, Or.inl rfl⟩
  | false =>
    refine ⟨_, runMain_loop env quota plan hmk hld hp, ?_⟩
    intro mem hmem
    cases hmem
    refine ⟨runLessons_length env _ 0 _, ?_, ?_⟩
    · intro j hj
      exact runLessons_getElem_ne env _ 0 _ j (fun p hp' => hj p hp')
    · intro j l l' hl hl'
      obtain ⟨l'', h'', hev⟩ :=
        runLessons_evolves env ((pendingLessons plan).take quota) 0 ⟨plan, plan, []⟩ j l hl
      rw [hl'] at h''
      cases h''
      obtain ⟨hc, hpp, ht, hcase⟩ := hev
      refine ⟨hc, hpp, ht, ?_⟩
      rcases hcase with rfl | hcomp
      · exact Or.inl rfl
      · by_cases hsel : ∀ p ∈ selOf plan quota, p.1 ≠ j
        · left
          have := runLessons_getElem_ne env _ 0 ⟨plan, plan, []⟩ j hsel
          rw [selOf] at this
          rw [hl'] at this
          rw [hl] at this
          cases this
          rfl
        · right
          push_neg at hsel
          obtain ⟨p, hpmem, hpj⟩ := hsel
          have hm := pendingLessons_mem (List.take_subset _ _ hpmem)
          rw [hpj] at hm
          rw [hl] at hm
          obtain ⟨heq, hpend⟩ := hm
          cases heq
          rw [isPending_iff] at hpend
          exact ⟨hpend, hcomp⟩

/-- C10: witness at a concrete environment. -/
theorem c10_witness :
    ∃ r, runMain envHalf 1 = Except.ok r ∧ ∀ mem, r.plan = some mem →
      mem.lessons.length = planTwo.lessons.length := by
  obtain ⟨r, hr, h⟩ := c10_frame envHalf 1 planTwo rfl rfl
  exact ⟨r, hr, fun mem hm => (h mem hm).1⟩

/-- The cleanup block performs no content-generation call. -/
theorem runCleanup_filter_genContent (env : RunEnv) :
    (runCleanup env).filter Event.isGenContent = [] := by
  cases h : env.cleanup_ok <;> simp [runCleanup, h, Event.isGenContent]

/-- The content-generation calls of the lesson loop are exactly one per
selected lesson, in selection order. -/
theorem loop_filter_genContent (env : RunEnv) (plan : Plan) (quota : Nat) :
    (loopState env plan (selOf plan quota)).trace.filter Event.isGenContent =
      (selOf plan quota).map (fun il => Event.genContent il.2.title) := by
  have h1 := runLessons_filter_genContent env (selOf plan quota) 0 ⟨plan, plan, []⟩
  simpa [loopState] using h1

/-- C4: failure isolation.  If lessons `i` and `i+1` are both selected
and lesson `i`'s production sequence raises, lesson `i+1` is still
attempted: the run's trace holds exactly one content-generation event per
selected lesson, in order, and in particular one for lesson `i+1`. -/
theorem c4_isolation (env : RunEnv) (quota : Nat) (plan : Plan) (i : Nat)
    (hmk : env.mkdir_ok = Except.ok ()) (hld : env.load_plan = Except.ok plan)
    (hi : i + 1 < (selOf plan quota).length)
    (_hfail : (produce_lesson_videos (env.collab i)
      ((selOf plan quota).getD i (0, noLesson)).2).1 = Except.error ()) :
    ∃ r, runMain env quota = Except.ok r ∧
      r.trace.filter Event.isGenContent =
        (selOf plan quota).map (fun il => Event.genContent il.2.title) ∧
      Event.genContent (((selOf plan quota).getD (i + 1) (0, noLesson)).2.title) ∈ r.trace := by
  have hp : (pendingLessons plan).isEmpty = false := isEmpty_false_of_sel hi
  have hfilt := loop_filter_genContent env plan quota
  refine ⟨_, runMain_loop env quota plan hmk hld hp, ?_, ?_⟩
  · show ((loopState env plan (selOf plan quota)).trace ++ runCleanup env).filter
        Event.isGenContent = _
    rw [List.filter_append, hfilt, runCleanup_filter_genContent, List.append_nil]
  · show Event.genContent _ ∈ (loopState env plan (selOf plan quota)).trace ++ runCleanup env
    refine List.mem_append_left _ ?_
    have hmem : Event.genContent (((selOf plan quota).getD (i + 1) (0, noLesson)).2.title) ∈
        (selOf plan quota).map (fun il => Event.genContent il.2.title) := by
      rw [List.getD_eq_getElem _ _ hi]
      exact List.mem_map.mpr ⟨(selOf plan quota).get ⟨i + 1, hi⟩,
        List.get_mem (selOf plan quota) (i + 1) hi, rfl⟩
    rw [← hfilt] at hmem
    exact List.mem_of_mem_filter hmem

/-- C4: witness at a concrete environment whose first lesson raises. -/
theorem c4_witness :
    Event.genContent (((selOf planTwo 2).getD (0 + 1) (0, noLesson)).2.title) ∈
      traceOf (runMain envTwo 2) := by
  obtain ⟨r, hr, _, hm⟩ := c4_isolation envTwo 2 planTwo 0 rfl rfl (by decide) rfl
  rw [hr]
  exact hm

/-- C5: quota.  With `k` pending lessons and per-run quota `N < k`,
exactly the first `N` pending lessons (in original plan order) are
attempted — the trace holds one content-generation event per selected
lesson, in order — and each of the remaining `k - N` pending lessons is
left untouched with status still pending. -/
theorem c5_quota (env : RunEnv) (quota : Nat) (plan : Plan)
    (hmk : env.mkdir_ok = Except.ok ()) (hld : env.load_plan = Except.ok plan)
    (hk : quota < (pendingLessons plan).length) :
    ∃ r, runMain env quota = Except.ok r ∧
      (selOf plan quota).length = quota ∧
      r.trace.filter Event.isGenContent =
        (selOf plan quota).map (fun il => Event.genContent il.2.title) ∧
      (∀ p ∈ (pendingLessons plan).drop quota, ∀ mem, r.plan = some mem →
        mem.lessons[p.1]? = some p.2 ∧ p.2.status = Status.pending) := by
  have hp : (pendingLessons plan).isEmpty = false := by
    cases h : pendingLessons plan with
    | nil => rw [h] at hk; simp at hk
    | cons a l => rfl
  have hfilt := loop_filter_genContent env plan quota
  refine ⟨_, runMain_loop env quota plan hmk hld hp, ?_, ?_, ?_⟩
  · rw [selOf, List.length_take]
    omega
  · show ((loopState env plan (selOf plan quota)).trace ++ runCleanup env).filter
        Event.isGenContent = _
    rw [List.filter_append, hfilt, runCleanup_filter_genContent, List.append_nil]
  · intro p hpmem mem hmem
    cases hmem
    constructor
    · have hpw := pendingLessons_pairwise plan
      have hsplit : pendingLessons plan =
          (pendingLessons plan).take quota ++ (pendingLessons plan).drop quota :=
        (List.take_append_drop _ _).symm
      rw [hsplit] at hpw
      have hlt := (List.pairwise_append.mp hpw).2.2
      have hne : ∀ q ∈ (pendingLessons plan).take quota, q.1 ≠ p.1 :=
        fun q hq => Nat.ne_of_lt (hlt q hq p hpmem)
      have hframe := runLessons_getElem_ne env _ 0
        (⟨plan, plan, []⟩ : RunState) p.1 hne
      show (runLessons env 0 ⟨plan, plan, []⟩ ((pendingLessons plan).take quota)).mem.lessons[p.1]? =
        some p.2
      rw [hframe]
      exact (pendingLessons_mem (List.drop_subset _ _ hpmem)).1
    · rw [← isPending_iff]
      exact (pendingLessons_mem (List.drop_subset _ _ hpmem)).2

/-- C5: witness at a concrete two-lesson plan with quota 1. -/
theorem c5_witness :
    (selOf planTwo 1).length = 1 ∧
    (traceOf (runMain envTwo 1)).filter Event.isGenContent =
      (selOf planTwo 1).map (fun il => Event.genContent il.2.title) := by
  obtain ⟨r, hr, hlen, hfilt, _⟩ := c5_quota envTwo 1 planTwo rfl rfl (by decide)
  rw [hr]
  exact ⟨hlen, hfilt⟩

/-- C2: persistence after every attempt.  After lesson `i`'s attempt the
full in-memory plan is written to the plan file (the trace ends with that
save event), the persisted plan equals the in-memory plan at every loop
boundary, lesson `i`'s persisted entry is never changed by the processing
of lesson `i+1` or any later lesson whatever their outcome, and later
processing only appends to the trace. -/
theorem c2_persistence (env : RunEnv) (quota : Nat) (plan : Plan) (i : Nat)
    (hmk : env.mkdir_ok = Except.ok ()) (hld : env.load_plan = Except.ok plan)
    (hi : i < (selOf plan quota).length) :
    (∃ t, (loopState env plan ((selOf plan quota).take (i + 1))).trace =
        t ++ [Event.savePlan (loopState env plan ((selOf plan quota).take (i + 1))).mem]) ∧
    (loopState env plan ((selOf plan quota).take (i + 1))).disk =
      (loopState env plan ((selOf plan quota).take (i + 1))).mem ∧
    (∀ n, i + 1 ≤ n → n ≤ (selOf plan quota).length →
      (loopState env plan ((selOf plan quota).take n)).disk.lessons[
          ((selOf plan quota).getD i (0, noLesson)).1]? =
        (loopState env plan ((selOf plan quota).take (i + 1))).mem.lessons[
          ((selOf plan quota).getD i (0, noLesson)).1]?) ∧
    (∀ n, i + 1 ≤ n → n ≤ (selOf plan quota).length →
      (loopState env plan ((selOf plan quota).take (i + 1))).trace <+:
        (loopState env plan ((selOf plan quota).take n)).trace) ∧
    runMain env quota = Except.ok
      ⟨some (loopState env plan (selOf plan quota)).mem,
       some (loopState env plan (selOf plan quota)).disk,
       (loopState env plan (selOf plan quota)).trace ++ runCleanup env⟩ := by
  have htake : (selOf plan quota).take (i + 1) =
      (selOf plan quota).take i ++ [(selOf plan quota).get ⟨i, hi⟩] := by
    rw [List.take_succ]
    congr 1
    rw [List.getElem?_eq_getElem hi]
    rfl
  have hstep : loopState env plan ((selOf plan quota).take (i + 1)) =
      processOne (env.collab ((selOf plan quota).take i).length)
        (loopState env plan ((selOf plan quota).take i))
        ((selOf plan quota).get ⟨i, hi⟩) := by
    rw [loopState, htake, runLessons_append, Nat.zero_add]
    rfl
  have hgd : (selOf plan quota).getD i (0, noLesson) = (selOf plan quota).get ⟨i, hi⟩ :=
    List.getD_eq_getElem _ _ hi
  have hbI : (loopState env plan ((selOf plan quota).take (i + 1))).disk =
      (loopState env plan ((selOf plan quota).take (i + 1))).mem :=
    runLessons_disk env ((selOf plan quota).take (i + 1)) 0 ⟨plan, plan, []⟩ rfl
  have hkey : ∀ n, i + 1 ≤ n → (selOf plan quota).take n =
      (selOf plan quota).take (i + 1) ++ ((selOf plan quota).take n).drop (i + 1) := by
    intro n h1
    nth_rewrite 1 [← List.take_append_drop (i + 1) ((selOf plan quota).take n)]
    rw [List.take_take, Nat.min_eq_left h1]
  have hsplit : ∀ n, i + 1 ≤ n → loopState env plan ((selOf plan quota).take n) =
      runLessons env (0 + ((selOf plan quota).take (i + 1)).length)
        (loopState env plan ((selOf plan quota).take (i + 1)))
        (((selOf plan quota).take n).drop (i + 1)) := by
    intro n h1
    conv_lhs => rw [loopState, hkey n h1, runLessons_append]
    rfl
  have hne : ∀ n, i + 1 ≤ n → ∀ p ∈ ((selOf plan quota).take n).drop (i + 1),
      p.1 ≠ ((selOf plan quota).getD i (0, noLesson)).1 := by
    intro n h1
    rw [hgd]
    have hpwsel : (selOf plan quota).Pairwise (fun a b => a.1 < b.1) :=
      (pendingLessons_pairwise plan).sublist (List.take_sublist _ _)
    have hpwn : ((selOf plan quota).take n).Pairwise (fun a b => a.1 < b.1) :=
      hpwsel.sublist (List.take_sublist _ _)
    rw [hkey n h1] at hpwn
    have hcross := (List.pairwise_append.mp hpwn).2.2
    have hmemA : (selOf plan quota).get ⟨i, hi⟩ ∈ (selOf plan quota).take (i + 1) := by
      rw [htake]
      exact List.mem_append_right _ (List.mem_singleton.mpr rfl)
    intro p hp
    exact (Nat.ne_of_lt (hcross _ hmemA p hp)).symm
  refine ⟨?_, hbI, ?_, ?_, ?_⟩
  · refine ⟨(loopState env plan ((selOf plan quota).take i)).trace ++
      (produce_lesson_videos (env.collab ((selOf plan quota).take i).length)
        ((selOf plan quota).get ⟨i, hi⟩).2).2, ?_⟩
    rw [hstep, processOne_trace]
  · intro n h1 h2
    rw [hsplit n h1]
    rw [runLessons_disk env _ _ _ hbI]
    rw [runLessons_getElem_ne env _ _ _ _ (hne n h1)]
  · intro n h1 h2
    obtain ⟨t, ht⟩ := runLessons_trace_extends env
      (((selOf plan quota).take n).drop (i + 1))
      (0 + ((selOf plan quota).take (i + 1)).length)
      (loopState env plan ((selOf plan quota).take (i + 1)))
    rw [hsplit n h1]
    exact ⟨t, ht.symm⟩
  · exact runMain_loop env quota plan hmk hld (isEmpty_false_of_sel hi)

/-- C2: witness at a concrete two-lesson run. -/
theorem c2_witness :
    (loopState envTwo planTwo ((selOf planTwo 2).take 2)).disk.lessons[
        ((selOf planTwo 2).getD 0 (0, noLesson)).1]? =
      (loopState envTwo planTwo ((selOf planTwo 2).take (0 + 1))).mem.lessons[
        ((selOf planTwo 2).getD 0 (0, noLesson)).1]? := by
  have h := c2_persistence envTwo 2 planTwo 0 rfl rfl (by decide)
  exact h.2.2.1 2 (by decide) (by decide)

end GeminiYT
